import Mathlib

/-!
Verification of the command routing and argument-transformation core of the
`hub`/`gh` command-line tool (release management, remote pass-through, help).

The Go handlers are shallowly embedded as pure functions producing a trace of
externally visible events (collaborator calls, prints to stdout/stderr, process
exit).  External collaborators (local repository, hosting API client, editor,
file reading, subprocess execution) are oracle parameters supplied through an
environment record, so a handler's trace is a pure function of its arguments,
its flags and the oracle answers.
-/

namespace Hub

/-- A GitHub project, as resolved by the local-repository collaborator
(`github.Project`; only the fields read by the embedded handlers). -/
structure Project where
  host : String
  owner : String
  name : String
deriving DecidableEq, Repr

/-- `Project.String()`: rendered as owner/name. -/
def Project.str (p : Project) : String := p.owner ++ "/" ++ p.name

/-- The release parameters built by `createRelease` (the `github.Release`
literal at release.go lines 222-229). -/
structure ReleaseParams where
  tagName : String
  targetCommitish : String
  name : String
  body : String
  draft : Bool
  prerelease : Bool
deriving DecidableEq, Repr

/-- A release value returned by the hosting API (`*github.Release`; only the
fields the embedded handlers read). -/
structure FetchedRelease where
  tagName : String
  name : String
  body : String
  draft : Bool
  htmlUrl : String
  assetDownloadUrls : List String
  zipballUrl : String
  tarballUrl : String
deriving DecidableEq, Repr

/-- Modelled from the spec: the error taxonomy of section 7.  A `usage` error
(missing required argument, too many arguments) and a `checked` collaborator
failure are the two kinds of error value passed to `utils.Check`
(`utils.Check` itself is not among the provided sources). -/
inductive GoError where
  | usage (msg : String)
  | checked (msg : String)
deriving DecidableEq, Repr

/-- The message carried by an error value. -/
def GoError.msg : GoError → String
  | .usage m => m
  | .checked m => m

/-- Modelled from the spec: the exit status used when `utils.Check` receives a
non-nil error — status 2 for a usage error (including a missing required
positional argument), a nonzero status (1) for a checked collaborator
failure. -/
def GoError.exitCode : GoError → Nat
  | .usage _ => 2
  | .checked _ => 1

/-- One externally visible event of a handler run. -/
inductive Event where
  | print (s : String)
  | errPrint (s : String)
  | localRepoCall
  | mainProjectCall
  | currentProjectCall
  | currentBranchCall
  | newClientCall (host : String)
  | fetchReleasesCall
  | fetchReleaseCall (tag : String)
  | createReleaseCall (params : ReleaseParams)
  | uploadAssetCall (release : FetchedRelease) (asset : String) (label : String)
  | readFileCall (file : String)
  | renderTplCall
  | newEditorCall
  | editTitleBodyCall
  | printListing (lines : List (String × String))
  | sysExecCall (command : String) (argv : List String)
  | expandRemoteUrlCall (owner : String) (isPrivate : Bool)
  | nilDeref
  | exit (code : Nat)
deriving DecidableEq, Repr

/-- Is this event a call to the hosting API collaborator (release listing,
fetching, creation, or asset upload)? -/
def Event.isHostingApi : Event → Bool
  | .fetchReleasesCall => true
  | .fetchReleaseCall _ => true
  | .createReleaseCall _ => true
  | .uploadAssetCall _ _ _ => true
  | _ => false

/-- Is this event an invocation of any external collaborator (local repository
lookup, hosting API client, editor, file reading, template rendering, external
binary, remote-URL expansion)? -/
def Event.isCollaborator : Event → Bool
  | .localRepoCall => true
  | .mainProjectCall => true
  | .currentProjectCall => true
  | .currentBranchCall => true
  | .newClientCall _ => true
  | .fetchReleasesCall => true
  | .fetchReleaseCall _ => true
  | .createReleaseCall _ => true
  | .uploadAssetCall _ _ _ => true
  | .readFileCall _ => true
  | .renderTplCall => true
  | .newEditorCall => true
  | .editTitleBodyCall => true
  | .sysExecCall _ _ => true
  | .expandRemoteUrlCall _ _ => true
  | _ => false

/-- Modelled from the spec: `utils.Check(err)` with a non-nil error reports the
error to standard error and terminates the process with the status of section
7's taxonomy. -/
def check (e : GoError) : List Event := [.errPrint e.msg, .exit e.exitCode]

/-- The mutable argument container handed to a handler: the remaining tokens
after command routing and flag parsing, plus the no-op latch.  Modelled from
the spec (section 4.1); the container implementation is not among the provided
sources. -/
structure Args where
  chunks : List String
  noop : Bool
deriving DecidableEq, Repr

/-- Modelled from the spec: `size()` is the count of remaining tokens. -/
def Args.size (a : Args) : Nat := a.chunks.length

/-- Modelled from the spec: `first()` is the leading remaining token. -/
def Args.first (a : Args) : String := a.chunks.headD ""

/-- Modelled from the spec: `lastParam()` returns the final positional token
(flags already stripped by the grammar), or the empty string if none. -/
def Args.lastParam (a : Args) : String := a.chunks.getLast?.getD ""

/-- Modelled from the spec: `isEmpty()`. -/
def Args.isEmpty (a : Args) : Bool := a.chunks.isEmpty

/-- Modelled from the spec: `indexOf(token)` returns the position of the token
or the sentinel -1 when absent. -/
def Args.indexOf (a : Args) (t : String) : Int :=
  match a.chunks.findIdx? (fun c => c = t) with
  | some i => (i : Int)
  | none => -1

/-- Modelled from the spec: `remove(index)` removes and returns the token at
the index, shifting subsequent tokens down. -/
def Args.remove (a : Args) (i : Nat) : String × Args :=
  (a.chunks.getD i "", { a with chunks := a.chunks.eraseIdx i })

/-- Modelled from the spec: `append(tokens...)` appends to the end. -/
def Args.append (a : Args) (t u : String) : Args :=
  { a with chunks := a.chunks ++ [t, u] }

/-- Modelled from the spec: `array()` materializes the current token
sequence. -/
def Args.array (a : Args) : List String := a.chunks

/-! ## The `remote` pass-through handler (remote.go) -/

/-- `parseRemotePrivateFlag`: looks up `-p`; when present removes it and
reports `true`, otherwise reports `false` (remote.go lines 317-324). -/
def parseRemotePrivateFlag (args : Args) : Bool × Args :=
  match args.indexOf "-p" with
  | .ofNat i => (true, (args.remove i).2)
  | .negSucc _ => (false, args)

/-- `transformRemoteArgs`: strips the `-p` toggle, removes the trailing owner
token, expands it through the hosting collaborator into a repository URL, and
appends the owner and the URL (remote.go lines 307-315).  Returns the events
emitted and the transformed container. -/
def transformRemoteArgs (expandRemoteUrl : String → Bool → String) (args : Args) :
    List Event × Args :=
  let pr := parseRemotePrivateFlag args
  let isPriavte := pr.1
  let rm := pr.2.remove (pr.2.size - 1)
  let owner := rm.1
  let url := expandRemoteUrl owner isPriavte
  ([.expandRemoteUrlCall owner isPriavte], (rm.2.append owner url))

/-- The `remote` handler (remote.go lines 298-305): transforms the container
for `add`/`set-url` with at least two remaining tokens, then hands the
resulting token sequence to the external binary via `git.SysExec`; a failure
of the subprocess launch is passed to `utils.Check`. -/
def remote (expandRemoteUrl : String → Bool → String) (sysExecResult : Except GoError Unit)
    (args : Args) : List Event :=
  let ta :=
    if args.size ≥ 2 ∧ (args.first = "add" ∨ args.first = "set-url") then
      transformRemoteArgs expandRemoteUrl args
    else
      ([], args)
  ta.1 ++ [.sysExecCall "remote" ta.2.array] ++
    (match sysExecResult with
     | .error e => check e
     | .ok _ => [])

/-! ## The release commands (release.go) -/

/-- The local-repository collaborator (`github.LocalRepo()` result): project
and branch lookups, each of which may report a checked failure. -/
structure LocalRepo where
  mainProject : Except GoError Project
  currentProject : Except GoError Project
  currentBranch : Except GoError String
deriving Repr

/-- The oracle environment: the answer each external collaborator gives when
called during one invocation. -/
structure Env where
  localRepo : Except GoError LocalRepo
  fetchReleases : Project → Except GoError (List FetchedRelease)
  fetchRelease : Project → String → Except GoError FetchedRelease
  createReleaseApi : Project → ReleaseParams → Except GoError FetchedRelease
  uploadAsset : FetchedRelease → String → String → Except GoError Unit
  readFile : String → Except GoError (String × String)
  renderTpl : Except GoError String
  newEditor : String → Except GoError Unit
  editTitleBody : Except GoError (String × String)

/-- The package-level flag variables of release.go, as resolved by the flag
grammar for one invocation. -/
structure ReleaseFlags where
  includeDrafts : Bool
  showDownloads : Bool
  draft : Bool
  prerelease : Bool
  assets : List String
  message : String
  file : String
  commitish : String
deriving DecidableEq, Repr

/-- Splits a character sequence at the first occurrence of `#`: the part
before it, and the part after it when one exists (`strings.SplitN(asset, "#",
2)` at release.go line 253). -/
def splitN2Hash : List Char → List Char × Option (List Char)
  | [] => ([], none)
  | c :: cs =>
    if c = '#' then ([], some cs)
    else
      let r := splitN2Hash cs
      (c :: r.1, r.2)

/-- The asset/label split of `uploadAssets` (release.go lines 252-257): the
part of the token before the first `#` is the asset filename, the part after
it is the label, the label staying empty when no `#` occurs. -/
def splitAsset (s : String) : String × String :=
  let r := splitN2Hash s.data
  (String.mk r.1, String.mk (r.2.getD []))

/-- Modelled from the spec (release.go usage text for `-m`): the first line of
the message is the release title and the rest is the release description
(`readMsg`, whose body is not among the provided sources). -/
def readMsg (s : String) : String × String :=
  match s.data.findIdx? (fun c => c = '\n') with
  | none => (s, "")
  | some i => (String.mk (s.data.take i), String.mk (s.data.drop (i + 1)))

/-- `uploadAssets` (release.go lines 250-271): walks the accumulated asset
tokens in order; in no-op mode describes each attachment on standard error; in
normal mode announces the attachment, dereferences the release pointer inside
the hosting API upload, and passes any upload failure to `utils.Check`.
Returns the emitted events and whether the process terminated inside the
loop. -/
def uploadAssets (env : Env) (release : Option FetchedRelease) (assets : List String)
    (noop : Bool) : List Event × Bool :=
  match assets with
  | [] => ([], false)
  | asset :: rest =>
    let al := splitAsset asset
    if noop then
      let msg :=
        if al.2 = "" then "Would attach release asset `" ++ al.1 ++ "'\n"
        else "Would attach release asset `" ++ al.1 ++ "' with label `" ++ al.2 ++ "'\n"
      let r := uploadAssets env release rest noop
      (.errPrint msg :: r.1, r.2)
    else
      match release with
      | none => ([.errPrint ("Attaching release asset `" ++ al.1 ++ "'...\n"), .nilDeref], true)
      | some rel =>
        match env.uploadAsset rel al.1 al.2 with
        | .error e =>
          ([.errPrint ("Attaching release asset `" ++ al.1 ++ "'...\n"),
            .uploadAssetCall rel al.1 al.2] ++ check e, true)
        | .ok _ =>
          let r := uploadAssets env release rest noop
          (.errPrint ("Attaching release asset `" ++ al.1 ++ "'...\n")
             :: .uploadAssetCall rel al.1 al.2 :: r.1, r.2)

/-- Appends the final `os.Exit(0)` of a handler after the asset-upload step,
unless the process already terminated inside it. -/
def finishUpload (r : List Event × Bool) : List Event :=
  r.1 ++ (if r.2 then [] else [.exit 0])

/-- The title/body resolution block of `createRelease` (release.go lines
197-216): `-m` takes the message apart with `readMsg`; otherwise a nonempty
`-f` reads title and body from a file — the source passes `flagReleaseMessage`
rather than `flagReleaseFile` as the file name (line 204); otherwise a
release template is rendered and an editor session produces title and body.
Returns the emitted events and the resolved title/body or the first checked
failure. -/
def resolveReleaseMsg (env : Env) (flags : ReleaseFlags) :
    List Event × Except GoError (String × String) :=
  if flags.message ≠ "" then
    ([], .ok (readMsg flags.message))
  else if flags.file ≠ "" then
    ([.readFileCall flags.message], env.readFile flags.message)
  else
    match env.renderTpl with
    | .error e => ([.renderTplCall], .error e)
    | .ok message =>
      match env.newEditor message with
      | .error e => ([.renderTplCall, .newEditorCall], .error e)
      | .ok _ =>
        ([.renderTplCall, .newEditorCall, .editTitleBodyCall], env.editTitleBody)

/-- The "would create" message of `createRelease` in no-op mode (release.go
line 234). -/
def wouldCreateMsg (title : String) (project : Project) (tagName : String) : String :=
  "Would create release `" ++ title ++ "' for " ++ project.str ++
    " with tag name `" ++ tagName ++ "'\n"

/-- The tail of `createRelease` after project and commitish resolution
(release.go lines 197-248): resolve title and body, abort on an empty title,
then either describe the would-be creation (no-op) or call the hosting API,
print the release URL, and upload the assets; ends with `os.Exit(0)`. -/
def createReleaseRest (env : Env) (flags : ReleaseFlags) (args : Args)
    (project : Project) (tagName commitish : String) : List Event :=
  let rm := resolveReleaseMsg env flags
  rm.1 ++
    match rm.2 with
    | .error e => check e
    | .ok tb =>
      if tb.1 = "" then check (.checked "Aborting release due to empty release title")
      else
        let params : ReleaseParams :=
          { tagName := tagName, targetCommitish := commitish, name := tb.1,
            body := tb.2, draft := flags.draft, prerelease := flags.prerelease }
        if args.noop then
          .print (wouldCreateMsg tb.1 project tagName) ::
            finishUpload (uploadAssets env none flags.assets args.noop)
        else
          .createReleaseCall params ::
            match env.createReleaseApi project params with
            | .error e => check e
            | .ok rel =>
              .print (rel.htmlUrl ++ "\n") ::
                finishUpload (uploadAssets env (some rel) flags.assets args.noop)

/-- The `createRelease` handler (release.go lines 175-248): requires a
trailing <TAG> argument, resolves the local repository and current project,
resolves the commitish (flag value, else current branch), then continues with
`createReleaseRest`. -/
def createRelease (env : Env) (flags : ReleaseFlags) (args : Args) : List Event :=
  let tagName := args.lastParam
  if tagName = "" then check (.usage "Missing argument TAG")
  else
    .localRepoCall ::
      match env.localRepo with
      | .error e => check e
      | .ok repo =>
        .currentProjectCall ::
          match repo.currentProject with
          | .error e => check e
          | .ok project =>
            .newClientCall project.host ::
              if flags.commitish = "" then
                .currentBranchCall ::
                  match repo.currentBranch with
                  | .error e => check e
                  | .ok branch => createReleaseRest env flags args project tagName branch
              else createReleaseRest env flags args project tagName flags.commitish

/-- The `showRelease` handler (release.go lines 134-173): requires a trailing
<TAG> argument, resolves the local repository and main project, then either
describes the lookup (no-op) or fetches the release and prints its name, body
and optionally the downloads section; ends with `os.Exit(0)`. -/
def showRelease (env : Env) (flags : ReleaseFlags) (args : Args) : List Event :=
  let tagName := args.lastParam
  if tagName = "" then check (.usage "Missing argument TAG")
  else
    .localRepoCall ::
      match env.localRepo with
      | .error e => check e
      | .ok repo =>
        .mainProjectCall ::
          match repo.mainProject with
          | .error e => check e
          | .ok project =>
            .newClientCall project.host ::
              if args.noop then
                [.print ("Would display information for `" ++ tagName ++ "' release\n"),
                 .exit 0]
              else
                .fetchReleaseCall tagName ::
                  match env.fetchRelease project tagName with
                  | .error e => check e
                  | .ok rel =>
                    let body := rel.body.trim
                    [.print (rel.name ++ " (" ++ rel.tagName ++ ")\n")] ++
                      (if body ≠ "" then [.print ("\n" ++ body ++ "\n")] else []) ++
                      (if flags.showDownloads then
                        [.print "\n## Downloads\n\n"] ++
                          rel.assetDownloadUrls.map (fun u => .print (u ++ "\n")) ++
                          (if rel.zipballUrl ≠ "" then
                            [.print (rel.zipballUrl ++ "\n"), .print (rel.tarballUrl ++ "\n")]
                          else [])
                      else []) ++ [.exit 0]

/-- The `listReleases` handler (release.go lines 109-132): resolves the local
repository and main project, then either describes the listing (no-op) or
fetches the releases and prints the tag name of each release that is not a
draft unless drafts are included; ends with `os.Exit(0)`. -/
def listReleases (env : Env) (flags : ReleaseFlags) (args : Args) : List Event :=
  .localRepoCall ::
    match env.localRepo with
    | .error e => check e
    | .ok repo =>
      .mainProjectCall ::
        match repo.mainProject with
        | .error e => check e
        | .ok project =>
          .newClientCall project.host ::
            if args.noop then
              [.print ("Would request list of releases for " ++ project.str ++ "\n"), .exit 0]
            else
              .fetchReleasesCall ::
                match env.fetchReleases project with
                | .error e => check e
                | .ok rels =>
                  (rels.filterMap (fun r =>
                    if !r.draft || flags.includeDrafts then some (Event.print (r.tagName ++ "\n"))
                    else none)) ++ [.exit 0]

/-! ## The `help` command (help.go) -/

/-- A registered command node, as seen by the help listing: its name, one-line
summary, usage text, whether it is runnable (has a handler) and whether it is
listed in generated usage text.  Modelled from the spec (section 3, Command
Node); the `Command` struct itself is not among the provided sources. -/
structure Cmd where
  name : String
  short : String
  usage : String
  runnable : Bool
  list : Bool
deriving DecidableEq, Repr

/-- The command registry: the three category lists used by the usage template
(`Branching`, `Remote`, `GitHub` in help.go lines 54-64). -/
structure Registry where
  branching : List Cmd
  remote : List Cmd
  github : List Cmd
deriving DecidableEq, Repr

/-- Modelled from the spec: `All()` — the flat index holding every node of the
category lists. -/
def Registry.all (r : Registry) : List Cmd := r.branching ++ r.remote ++ r.github

/-- One category block of the usage template (help.go lines 42-49): each
command of the category that is runnable and listed contributes one line of
its name and summary, in category order. -/
def listingLines (cmds : List Cmd) : List (String × String) :=
  cmds.filterMap (fun c => if c.runnable && c.list then some (c.name, c.short) else none)

/-- `PrintUsage` (help.go lines 54-64): the categorized listing rendered by
the usage template, as the sequence of (name, summary) lines over the three
categories in template order. -/
def renderUsage (reg : Registry) : List (String × String) :=
  listingLines reg.branching ++ listingLines reg.remote ++ listingLines reg.github

/-- The `runHelp` handler (help.go lines 20-38): with no arguments prints the
categorized usage listing and returns; with more than one argument calls
`log.Fatal("too many arguments")`, which reports to standard error and
terminates the process with status 1 (Go standard library semantics of
`log.Fatal`); with exactly one argument prints the usage of the matching
command, or reports an unknown help topic on standard error and exits with
status 2.  Returns the emitted events and whether the process terminated. -/
def runHelp (reg : Registry) (args : Args) : List Event × Bool :=
  if args.isEmpty then ([.printListing (renderUsage reg)], false)
  else if args.size ≠ 1 then ([.errPrint "too many arguments", .exit 1], true)
  else
    match reg.all.find? (fun c => c.name = args.first) with
    | some c => ([.print c.usage], false)
    | none =>
      ([.errPrint ("Unknown help topic: \x22" ++ args.first ++ "\x22. Run `gh help`.\n"),
        .exit 2], true)

/-- Modelled from the spec: when a handler returns normally, the surrounding
dispatch terminates the invocation with status 0 (the `runHelp` success paths
return instead of exiting, per the comment at help.go line 23). -/
def helpProcess (reg : Registry) (args : Args) : List Event :=
  let r := runHelp reg args
  r.1 ++ (if r.2 then [] else [.exit 0])

/-! ## The repeated-string flag grammar for `-a`/`--attach` -/

/-- Modelled from the spec (section 4.2, and the `-a`/`--attach` declaration
at release.go line 99): the flag parse scans the tokens left to right; each
occurrence of a declared alias of the repeated-string flag consumes the alias
and its following value token, accumulating every value into an ordered
sequence; all other tokens are left, in their original relative order, as the
positional remainder.  (The flag-grammar implementation is not among the
provided sources; the `=`-joined form is not needed here.)  Returns the
accumulated values and the positional remainder. -/
def parseAttachFlags : List String → List String × List String
  | [] => ([], [])
  | t :: rest =>
    if t = "-a" ∨ t = "--attach" then
      match rest with
      | [] => ([], [])
      | v :: rest2 =>
        let r := parseAttachFlags rest2
        (v :: r.1, r.2)
    else
      let r := parseAttachFlags rest
      (r.1, t :: r.2)

/-! ## Concrete sample data for evaluating the embedding -/

/-- A sample project for concrete runs. -/
def sampleProject : Project := ⟨"github.com", "octo", "hello"⟩

/-- A sample local repository whose lookups all succeed. -/
def sampleRepo : LocalRepo := ⟨.ok sampleProject, .ok sampleProject, .ok "master"⟩

/-- A sample release returned by the hosting API. -/
def sampleRelease : FetchedRelease :=
  ⟨"v1.0", "v1 title", "release body", false,
   "https://github.com/octo/hello/releases/v1.0", [], "", ""⟩

/-- A sample environment in which every collaborator call succeeds. -/
def sampleEnv : Env :=
  { localRepo := .ok sampleRepo
    fetchReleases := fun _ => .ok [sampleRelease]
    fetchRelease := fun _ _ => .ok sampleRelease
    createReleaseApi := fun _ _ => .ok sampleRelease
    uploadAsset := fun _ _ _ => .ok ()
    readFile := fun _ => .ok ("file title", "file body")
    renderTpl := .ok "rendered template"
    newEditor := fun _ => .ok ()
    editTitleBody := .ok ("edited title", "edited body") }

/-- A sample environment whose asset upload reports a checked failure. -/
def failUploadEnv : Env :=
  { sampleEnv with uploadAsset := fun _ _ _ => .error (.checked "upload failed") }

/-- Sample resolved flags for the release-create handler. -/
def sampleFlags : ReleaseFlags :=
  { includeDrafts := false, showDownloads := false, draft := false, prerelease := false,
    assets := ["f1", "f2#label"], message := "v1 title\nrelease body", file := "",
    commitish := "" }

/-- Flags exercising the `--file` branch: empty message, a named file. -/
def fileBugFlags : ReleaseFlags :=
  { sampleFlags with message := "", file := "notes.txt", assets := [] }

/-- Flags for a create invocation with an explicit commitish and one asset. -/
def uploadFailFlags : ReleaseFlags :=
  { sampleFlags with commitish := "main", assets := ["f1"] }

/-- Sample command nodes and registry for the help listing. -/
def sampleRegistry : Registry :=
  ⟨[⟨"checkout", "Switch branches", "usage: gh checkout", true, true⟩],
   [⟨"remote", "Manage remotes", "usage: gh remote", true, true⟩],
   [⟨"release", "Manage releases", "usage: gh release", true, true⟩,
    ⟨"help", "Show help", "usage: gh help", true, false⟩]⟩

/-! ## Helper lemmas -/

theorem parseRemotePrivateFlag_eq_aux (args : Args) :
    parseRemotePrivateFlag args =
      (match args.chunks.findIdx? (fun c => c = "-p") with
       | some i => (true, { args with chunks := args.chunks.eraseIdx i })
       | none => (false, args)) := by
  unfold parseRemotePrivateFlag Args.indexOf Args.remove
  cases h : args.chunks.findIdx? (fun c => c = "-p") with
  | some i => simp [h]
  | none => rfl

theorem eraseIdx_findIdx_eq_erase {xs : List String} {i : Nat}
    (h : xs.findIdx? (fun c => decide (c = "-p")) = some i) :
    xs.eraseIdx i = xs.erase "-p" ∧ xs.contains "-p" = true := by
  rw [List.findIdx?_eq_some_iff_getElem] at h
  obtain ⟨hi, hpi, hlt⟩ := h
  have hxi : xs[i] = "-p" := by simpa using hpi
  have hmem : "-p" ∈ xs := hxi ▸ List.getElem_mem hi
  refine ⟨?_, by simpa using hmem⟩
  have hnotin : "-p" ∉ xs.take i := by
    intro hmem'
    obtain ⟨j, hj, hj2⟩ := List.mem_iff_getElem.1 hmem'
    have hji : j < i := lt_of_lt_of_le hj (by simpa using List.length_take_le i xs)
    have := hlt j hji
    rw [List.getElem_take] at hj2
    simp [hj2] at this
  have hdecomp : xs = xs.take i ++ "-p" :: xs.drop (i + 1) := by
    conv_lhs => rw [← List.take_append_drop i xs]
    rw [List.drop_eq_getElem_cons hi, hxi]
  rw [List.eraseIdx_eq_take_drop_succ]
  symm
  rw [List.erase_eq_iff]
  exact Or.inr ⟨xs.take i, xs.drop (i + 1), hnotin, hdecomp, rfl⟩

theorem contains_erase_of_findIdx_none {xs : List String}
    (h : xs.findIdx? (fun c => decide (c = "-p")) = none) :
    xs.contains "-p" = false ∧ xs.erase "-p" = xs := by
  rw [List.findIdx?_eq_none_iff] at h
  have hnm : "-p" ∉ xs := fun hm => by simpa using h _ hm
  exact ⟨by simpa using hnm, List.erase_eq_self_iff.2 hnm⟩

theorem parseRemotePrivateFlag_eq (args : Args) :
    parseRemotePrivateFlag args =
      (args.chunks.contains "-p", ⟨args.chunks.erase "-p", args.noop⟩) := by
  rw [parseRemotePrivateFlag_eq_aux]
  cases h : args.chunks.findIdx? (fun c => decide (c = "-p")) with
  | none =>
    obtain ⟨h1, h2⟩ := contains_erase_of_findIdx_none h
    have hnm : "-p" ∉ args.chunks := by simpa using h1
    simp [h1, h2, hnm]
  | some i =>
    obtain ⟨h1, h2⟩ := eraseIdx_findIdx_eq_erase h
    have hm : "-p" ∈ args.chunks := by simpa using h2
    simp [h1, h2, hm]

theorem eraseIdx_last_idx (l : List String) : l.eraseIdx (l.length - 1) = l.dropLast := by
  cases l with
  | nil => rfl
  | cons x xs =>
    symm
    exact List.dropLast_eq_eraseIdx (by simp)

theorem getD_last_idx (l : List String) : l.getD (l.length - 1) "" = l.getLast?.getD "" := by
  rw [List.getD_eq_getElem?_getD, List.getLast?_eq_getElem?]

theorem remove_last_eq (args : Args) :
    args.remove (args.size - 1) =
      (args.chunks.getLast?.getD "", ⟨args.chunks.dropLast, args.noop⟩) := by
  obtain ⟨chunks, noop⟩ := args
  unfold Args.remove Args.size
  rw [getD_last_idx, eraseIdx_last_idx]

theorem transformRemoteArgs_eq (expand : String → Bool → String) (args : Args) :
    transformRemoteArgs expand args =
      ([.expandRemoteUrlCall ((args.chunks.erase "-p").getLast?.getD "")
          (args.chunks.contains "-p")],
       ⟨(args.chunks.erase "-p").dropLast ++
          [(args.chunks.erase "-p").getLast?.getD "",
           expand ((args.chunks.erase "-p").getLast?.getD "") (args.chunks.contains "-p")],
        args.noop⟩) := by
  unfold transformRemoteArgs
  simp only [parseRemotePrivateFlag_eq, remove_last_eq, Args.append]

/-! ## C1 -/

/-- C1: for every invocation of the remote handler whose first remaining
argument is "add" or "set-url" and which has at least two remaining
arguments, the handler removes the `-p` toggle (recording it as a boolean),
removes the trailing owner token, resolves the owner through the hosting
collaborator with that boolean, and forwards the remaining tokens in their
original relative order with the owner and the resolved URL appended at the
end. -/
theorem remote_transforms_add_seturl
    (expand : String → Bool → String) (res : Except GoError Unit)
    (chunks : List String) (noop : Bool)
    (hlen : 2 ≤ chunks.length)
    (hfirst : chunks.headD "" = "add" ∨ chunks.headD "" = "set-url") :
    remote expand res ⟨chunks, noop⟩ =
      Event.expandRemoteUrlCall ((chunks.erase "-p").getLast?.getD "")
          (chunks.contains "-p") ::
        Event.sysExecCall "remote"
          ((chunks.erase "-p").dropLast ++
            [(chunks.erase "-p").getLast?.getD "",
             expand ((chunks.erase "-p").getLast?.getD "") (chunks.contains "-p")]) ::
        (match res with | .error e => check e | .ok _ => []) := by
  unfold remote
  have hcond : (Args.mk chunks noop).size ≥ 2 ∧
      ((Args.mk chunks noop).first = "add" ∨ (Args.mk chunks noop).first = "set-url") := by
    exact ⟨hlen, hfirst⟩
  rw [if_pos hcond, transformRemoteArgs_eq]
  rfl

/-- Witness for C1 at a concrete invocation `remote add -p jingweno`. -/
theorem remote_transforms_add_seturl_witness :
    remote (fun o p => if p then "ssh:" ++ o else "git:" ++ o) (.ok ())
        ⟨["add", "-p", "jingweno"], false⟩ =
      [Event.expandRemoteUrlCall "jingweno" true,
       Event.sysExecCall "remote" ["add", "jingweno", "ssh:jingweno"]] := by
  have h := remote_transforms_add_seturl
    (fun o p => if p then "ssh:" ++ o else "git:" ++ o) (.ok ())
    ["add", "-p", "jingweno"] false (by decide) (Or.inl rfl)
  rw [h]
  decide

/-! ## C6 -/

theorem remote_eq (expand : String → Bool → String) (res : Except GoError Unit)
    (chunks : List String) (b : Bool) :
    remote expand res ⟨chunks, b⟩ =
      (if 2 ≤ chunks.length ∧ (chunks.headD "" = "add" ∨ chunks.headD "" = "set-url") then
        [Event.expandRemoteUrlCall ((chunks.erase "-p").getLast?.getD "")
           (chunks.contains "-p"),
         Event.sysExecCall "remote"
           ((chunks.erase "-p").dropLast ++
             [(chunks.erase "-p").getLast?.getD "",
              expand ((chunks.erase "-p").getLast?.getD "") (chunks.contains "-p")])]
      else [Event.sysExecCall "remote" chunks]) ++
      (match res with | .error e => check e | .ok _ => []) := by
  unfold remote
  simp only [Args.size, Args.first, Args.array, ge_iff_le]
  by_cases hc : 2 ≤ chunks.length ∧ (chunks.headD "" = "add" ∨ chunks.headD "" = "set-url")
  · rw [if_pos hc, if_pos hc, transformRemoteArgs_eq]
    rfl
  · rw [if_neg hc, if_neg hc]
    rfl

/-- C6 counterexample: with the no-op latch set, invoking the remote handler
as `remote add jingweno` still resolves the owner through the hosting
collaborator, still executes the external binary, and prints no description,
refuting the claim that it never does so in no-op mode. -/
theorem remote_noop_counterexample :
    Event.expandRemoteUrlCall "jingweno" false ∈
        remote (fun o _ => "git://github.com/" ++ o ++ "/repo.git") (.ok ())
          ⟨["add", "jingweno"], true⟩ ∧
      Event.sysExecCall "remote"
          ["add", "jingweno", "git://github.com/jingweno/repo.git"] ∈
        remote (fun o _ => "git://github.com/" ++ o ++ "/repo.git") (.ok ())
          ⟨["add", "jingweno"], true⟩ ∧
      (remote (fun o _ => "git://github.com/" ++ o ++ "/repo.git") (.ok ())
          ⟨["add", "jingweno"], true⟩).all
        (fun e => match e with | Event.print _ => false | _ => true) = true := by
  refine ⟨by decide, by decide, by decide⟩

/-- C6 amended: the remote handler never consults the no-op latch — its trace
is identical whether or not the latch is set, and it always hands a token
sequence to the external binary. -/
theorem remote_ignores_noop (expand : String → Bool → String)
    (res : Except GoError Unit) (chunks : List String) :
    remote expand res ⟨chunks, true⟩ = remote expand res ⟨chunks, false⟩ ∧
      ∃ argv, Event.sysExecCall "remote" argv ∈ remote expand res ⟨chunks, true⟩ := by
  constructor
  · rw [remote_eq, remote_eq]
  · rw [remote_eq]
    by_cases hc : 2 ≤ chunks.length ∧ (chunks.headD "" = "add" ∨ chunks.headD "" = "set-url")
    · rw [if_pos hc]
      refine ⟨(chunks.erase "-p").dropLast ++
        [(chunks.erase "-p").getLast?.getD "",
         expand ((chunks.erase "-p").getLast?.getD "") (chunks.contains "-p")], ?_⟩
      simp
    · rw [if_neg hc]
      exact ⟨chunks, by simp⟩

/-! ## C2 -/

theorem splitN2Hash_no_hash {s : List Char} (h : '#' ∉ s) :
    splitN2Hash s = (s, none) := by
  induction s with
  | nil => rfl
  | cons c cs ih =>
    have hc : ¬c = '#' := fun hcc => h (hcc ▸ List.mem_cons_self c cs)
    have hcs : '#' ∉ cs := fun hm => h (List.mem_cons_of_mem c hm)
    simp [splitN2Hash, hc, ih hcs]

theorem splitN2Hash_with_hash {a : List Char} (l : List Char) (h : '#' ∉ a) :
    splitN2Hash (a ++ '#' :: l) = (a, some l) := by
  induction a with
  | nil => simp [splitN2Hash]
  | cons c cs ih =>
    have hc : ¬c = '#' := fun hcc => h (hcc ▸ List.mem_cons_self c cs)
    have hcs : '#' ∉ cs := fun hm => h (List.mem_cons_of_mem c hm)
    simp [splitN2Hash, hc, ih hcs]

/-- C2: against the repeated-string flag `-a`/`--attach`, the sample argument
vector accumulates both occurrences into the ordered sequence
["f1", "f2#label"]; splitting an accumulated asset token on the first `#`
yields the filename before it and the label after it, the label staying empty
when no `#` occurs (so "f2#label" gives filename "f2" and label "label", and
"f1" gives filename "f1" and an empty label). -/
theorem attach_accumulates_and_splits :
    parseAttachFlags ["cmd", "-a", "f1", "-a", "f2#label"] = (["f1", "f2#label"], ["cmd"]) ∧
      splitAsset "f2#label" = ("f2", "label") ∧
      splitAsset "f1" = ("f1", "") ∧
      (∀ a l : List Char, '#' ∉ a →
        splitAsset (String.mk (a ++ '#' :: l)) = (String.mk a, String.mk l)) ∧
      (∀ s : String, '#' ∉ s.data → splitAsset s = (s, "")) := by
  refine ⟨by decide, by decide, by decide, ?_, ?_⟩
  · intro a l h
    unfold splitAsset
    rw [show (String.mk (a ++ '#' :: l)).data = a ++ '#' :: l from rfl]
    rw [splitN2Hash_with_hash l h]
    rfl
  · intro s h
    unfold splitAsset
    rw [splitN2Hash_no_hash h]
    cases s
    rfl

/-- Witness for C2's universally quantified split characterizations at
concrete inputs. -/
theorem attach_accumulates_and_splits_witness :
    splitAsset (String.mk (['x'] ++ '#' :: ['y'])) = (String.mk ['x'], String.mk ['y']) ∧
      splitAsset "plain" = ("plain", "") := by
  exact ⟨attach_accumulates_and_splits.2.2.2.1 ['x'] ['y'] (by decide),
    attach_accumulates_and_splits.2.2.2.2 "plain" (by decide)⟩

/-! ## C3 -/

/-- C3: invoking the release show handler or the release create handler with
zero remaining positional arguments (so the trailing tag-name parameter is
empty) reports the missing TAG on standard error and exits with status 2,
and no external collaborator is invoked. -/
theorem release_missing_tag_exits_2 (env : Env) (flags : ReleaseFlags) (noop : Bool) :
    showRelease env flags ⟨[], noop⟩ = [.errPrint "Missing argument TAG", .exit 2] ∧
      createRelease env flags ⟨[], noop⟩ = [.errPrint "Missing argument TAG", .exit 2] ∧
      (∀ ev ∈ showRelease env flags ⟨[], noop⟩, ev.isCollaborator = false) ∧
      (∀ ev ∈ createRelease env flags ⟨[], noop⟩, ev.isCollaborator = false) := by
  have hs : showRelease env flags ⟨[], noop⟩ =
      [.errPrint "Missing argument TAG", .exit 2] := rfl
  have hcr : createRelease env flags ⟨[], noop⟩ =
      [.errPrint "Missing argument TAG", .exit 2] := rfl
  refine ⟨hs, hcr, ?_, ?_⟩
  · intro ev hev
    rw [hs] at hev
    rcases List.mem_cons.1 hev with rfl | hev2
    · rfl
    · rcases List.mem_cons.1 hev2 with rfl | hev3
      · rfl
      · simp at hev3
  · intro ev hev
    rw [hcr] at hev
    rcases List.mem_cons.1 hev with rfl | hev2
    · rfl
    · rcases List.mem_cons.1 hev2 with rfl | hev3
      · rfl
      · simp at hev3

/-! ## C4 -/

/-- C4 counterexample: `help` with two remaining arguments reports the
diagnostic on standard error but exits with status 1 (via `log.Fatal`), not
with status 2 as claimed. -/
theorem help_too_many_args_counterexample :
    helpProcess sampleRegistry ⟨["release", "create"], false⟩ =
        [.errPrint "too many arguments", .exit 1] ∧
      Event.exit 2 ∉ helpProcess sampleRegistry ⟨["release", "create"], false⟩ := by
  exact ⟨by decide, by decide⟩

/-- C4 amended: for every invocation of the help command with more than one
remaining argument, a diagnostic is reported to standard error and the
process exits with status 1 (the status of `log.Fatal`), with no further
events. -/
theorem help_too_many_args (reg : Registry) (chunks : List String) (noop : Bool)
    (h : 1 < chunks.length) :
    helpProcess reg ⟨chunks, noop⟩ = [.errPrint "too many arguments", .exit 1] := by
  have hne : chunks.isEmpty = false := by
    cases chunks with
    | nil => simp at h
    | cons a t => rfl
  have hsz : ¬(chunks.length = 1) := by omega
  unfold helpProcess runHelp Args.isEmpty Args.size
  simp [hne, hsz]

/-- Witness for C4's amended claim at a concrete invocation. -/
theorem help_too_many_args_witness :
    helpProcess sampleRegistry ⟨["a", "b"], true⟩ =
      [.errPrint "too many arguments", .exit 1] :=
  help_too_many_args sampleRegistry ["a", "b"] true (by decide)

/-! ## C7 -/

theorem listingLines_eq_filter (cmds : List Cmd) :
    listingLines cmds =
      (cmds.filter (fun d => d.runnable && d.list)).map (fun d => (d.name, d.short)) := by
  induction cmds with
  | nil => rfl
  | cons d ds ih =>
    by_cases hd : (d.runnable && d.list) = true
    · have hstep : listingLines (d :: ds) = (d.name, d.short) :: listingLines ds := by
        unfold listingLines
        rw [List.filterMap_cons]
        simp [hd]
      rw [hstep, ih, List.filter_cons]
      simp [hd]
    · have hstep : listingLines (d :: ds) = listingLines ds := by
        unfold listingLines
        rw [List.filterMap_cons]
        simp [hd]
      rw [hstep, ih, List.filter_cons]
      simp [hd]

theorem listingNames_sublist (cmds : List Cmd) :
    ((listingLines cmds).map Prod.fst).Sublist (cmds.map Cmd.name) := by
  rw [listingLines_eq_filter, List.map_map]
  have hcomp : (Prod.fst ∘ fun d : Cmd => (d.name, d.short)) = Cmd.name := rfl
  rw [hcomp]
  exact List.Sublist.map Cmd.name (List.filter_sublist cmds)

theorem mem_listingLines {c : Cmd} {cmds : List Cmd} (hm : c ∈ cmds)
    (hr : c.runnable = true) (hl : c.list = true) :
    (c.name, c.short) ∈ listingLines cmds := by
  unfold listingLines
  rw [List.mem_filterMap]
  exact ⟨c, hm, by simp [hr, hl]⟩

/-- C7: `help` with zero arguments renders the categorized listing and the
process exits 0; every registered node marked listable (nodes being runnable
and registered under pairwise distinct names) appears in the listing exactly
once; and each category block lists, in registration order, exactly its
runnable listable nodes. -/
theorem help_lists_listable_once (reg : Registry) (c : Cmd) (noop : Bool)
    (hnodup : ((reg.all).map Cmd.name).Nodup)
    (hrun : ∀ d ∈ reg.all, d.list = true → d.runnable = true)
    (hc : c ∈ reg.all) (hlist : c.list = true) :
    (((renderUsage reg).map Prod.fst).count c.name = 1) ∧
      helpProcess reg ⟨[], noop⟩ = [.printListing (renderUsage reg), .exit 0] ∧
      ∀ cmds : List Cmd, listingLines cmds =
        (cmds.filter (fun d => d.runnable && d.list)).map (fun d => (d.name, d.short)) := by
  refine ⟨?_, rfl, listingLines_eq_filter⟩
  have hr : c.runnable = true := hrun c hc hlist
  have hsub : ((renderUsage reg).map Prod.fst).Sublist ((reg.all).map Cmd.name) := by
    unfold renderUsage Registry.all
    rw [List.map_append, List.map_append, List.map_append, List.map_append]
    exact ((listingNames_sublist _).append (listingNames_sublist _)).append
      (listingNames_sublist _)
  have hmemname : c.name ∈ (renderUsage reg).map Prod.fst := by
    unfold renderUsage
    unfold Registry.all at hc
    rw [List.map_append, List.map_append]
    rcases List.mem_append.1 hc with hbr | hg
    · rcases List.mem_append.1 hbr with hb | hr2
      · exact List.mem_append_left _ (List.mem_append_left _
          (List.mem_map_of_mem Prod.fst (mem_listingLines hb hr hlist)))
      · exact List.mem_append_left _ (List.mem_append_right _
          (List.mem_map_of_mem Prod.fst (mem_listingLines hr2 hr hlist)))
    · exact List.mem_append_right _
        (List.mem_map_of_mem Prod.fst (mem_listingLines hg hr hlist))
  have hle := (List.nodup_iff_count_le_one.1 (hnodup.sublist hsub)) c.name
  have hge : 0 < ((renderUsage reg).map Prod.fst).count c.name :=
    List.count_pos_iff.2 hmemname
  omega

/-- Witness for C7 at the sample registry and its "release" node. -/
theorem help_lists_listable_once_witness :
    (((renderUsage sampleRegistry).map Prod.fst).count "release" = 1) ∧
      helpProcess sampleRegistry ⟨[], false⟩ =
        [.printListing (renderUsage sampleRegistry), .exit 0] := by
  have h := help_lists_listable_once sampleRegistry
    ⟨"release", "Manage releases", "usage: gh release", true, true⟩ false
    (by decide) (by decide) (by decide) (by decide)
  exact ⟨h.1, h.2.1⟩

/-! ## Release no-op and failure lemmas -/

theorem uploadAssets_noop_step (env : Env) (rel : Option FetchedRelease)
    (a : String) (rest : List String) :
    uploadAssets env rel (a :: rest) true =
      (Event.errPrint
          (if (splitAsset a).2 = "" then
            "Would attach release asset `" ++ (splitAsset a).1 ++ "'\n"
          else
            "Would attach release asset `" ++ (splitAsset a).1 ++ "' with label `" ++
              (splitAsset a).2 ++ "'\n") :: (uploadAssets env rel rest true).1,
       (uploadAssets env rel rest true).2) := rfl

theorem uploadAssets_noop (env : Env) (rel : Option FetchedRelease) (assets : List String) :
    (uploadAssets env rel assets true).2 = false ∧
      ∀ ev ∈ (uploadAssets env rel assets true).1, ∃ s, ev = Event.errPrint s := by
  induction assets with
  | nil =>
    refine ⟨rfl, ?_⟩
    intro ev hev
    simp [uploadAssets] at hev
  | cons a rest ih =>
    rw [uploadAssets_noop_step]
    refine ⟨ih.1, ?_⟩
    intro ev hev
    rcases List.mem_cons.1 hev with rfl | h2
    · exact ⟨_, rfl⟩
    · exact ih.2 ev h2

theorem uploadAssets_noop_indep (env : Env) (r1 r2 : Option FetchedRelease)
    (assets : List String) :
    uploadAssets env r1 assets true = uploadAssets env r2 assets true := by
  induction assets with
  | nil => rfl
  | cons a rest ih =>
    rw [uploadAssets_noop_step, uploadAssets_noop_step, ih]

theorem resolveReleaseMsg_events (env : Env) (flags : ReleaseFlags) :
    ∀ ev ∈ (resolveReleaseMsg env flags).1,
      ev = Event.readFileCall flags.message ∨ ev = Event.renderTplCall ∨
        ev = Event.newEditorCall ∨ ev = Event.editTitleBodyCall := by
  intro ev hev
  unfold resolveReleaseMsg at hev
  by_cases h1 : flags.message ≠ ""
  · rw [if_pos h1] at hev
    simp at hev
  · rw [if_neg h1] at hev
    by_cases h2 : flags.file ≠ ""
    · rw [if_pos h2] at hev
      simp at hev
      exact Or.inl hev
    · rw [if_neg h2] at hev
      cases hrt : env.renderTpl with
      | error e =>
        simp only [hrt] at hev
        simp at hev
        exact Or.inr (Or.inl hev)
      | ok m =>
        simp only [hrt] at hev
        cases hne : env.newEditor m with
        | error e =>
          simp only [hne] at hev
          simp at hev
          rcases hev with rfl | rfl
          · exact Or.inr (Or.inl rfl)
          · exact Or.inr (Or.inr (Or.inl rfl))
        | ok u =>
          simp only [hne] at hev
          simp at hev
          rcases hev with rfl | rfl | rfl
          · exact Or.inr (Or.inl rfl)
          · exact Or.inr (Or.inr (Or.inl rfl))
          · exact Or.inr (Or.inr (Or.inr rfl))

theorem createReleaseRest_noop (env : Env) (flags : ReleaseFlags) (chunks : List String)
    (project : Project) (tag comm : String) (evs : List Event) (tb : String × String)
    (hmsg : resolveReleaseMsg env flags = (evs, .ok tb)) (htitle : tb.1 ≠ "") :
    createReleaseRest env flags ⟨chunks, true⟩ project tag comm =
      evs ++ [Event.print (wouldCreateMsg tb.1 project tag)] ++
        (uploadAssets env none flags.assets true).1 ++ [Event.exit 0] := by
  unfold createReleaseRest finishUpload
  simp only [hmsg]
  rw [if_neg htitle]
  simp only [(uploadAssets_noop env none flags.assets).1]
  simp

theorem createRelease_noop_trace
    (env : Env) (flags : ReleaseFlags) (chunks : List String)
    (repo : LocalRepo) (project : Project) (comm : String)
    (evs : List Event) (tb : String × String)
    (htag : chunks.getLast?.getD "" ≠ "")
    (hrepo : env.localRepo = .ok repo)
    (hproj : repo.currentProject = .ok project)
    (hcm : (if flags.commitish = "" then repo.currentBranch
            else Except.ok flags.commitish) = .ok comm)
    (hmsg : resolveReleaseMsg env flags = (evs, .ok tb))
    (htitle : tb.1 ≠ "") :
    createRelease env flags ⟨chunks, true⟩ =
      [Event.localRepoCall, Event.currentProjectCall, Event.newClientCall project.host] ++
        (if flags.commitish = "" then [Event.currentBranchCall] else []) ++ evs ++
        [Event.print (wouldCreateMsg tb.1 project (chunks.getLast?.getD ""))] ++
        (uploadAssets env none flags.assets true).1 ++ [Event.exit 0] := by
  unfold createRelease
  simp only [Args.lastParam]
  rw [if_neg htag]
  simp only [hrepo, hproj]
  by_cases hcom : flags.commitish = ""
  · rw [if_pos hcom] at hcm ⊢
    simp only [hcm]
    rw [createReleaseRest_noop env flags chunks project _ comm evs tb hmsg htitle]
    simp [hcom]
  · rw [if_neg hcom] at hcm ⊢
    rw [createReleaseRest_noop env flags chunks project _ flags.commitish evs tb hmsg htitle]
    simp [hcom]

/-! ## C5 -/

/-- C5: with the no-op latch set, a (successful) release-create invocation
makes zero calls to the hosting API collaborator for any number of --attach
assets, prints a message containing the would-be tag name and the would-be
title, and the trace ends with exit status 0. -/
theorem createRelease_noop_no_api
    (env : Env) (flags : ReleaseFlags) (chunks : List String)
    (repo : LocalRepo) (project : Project) (comm : String)
    (evs : List Event) (tb : String × String)
    (htag : chunks.getLast?.getD "" ≠ "")
    (hrepo : env.localRepo = .ok repo)
    (hproj : repo.currentProject = .ok project)
    (hcm : (if flags.commitish = "" then repo.currentBranch
            else Except.ok flags.commitish) = .ok comm)
    (hmsg : resolveReleaseMsg env flags = (evs, .ok tb))
    (htitle : tb.1 ≠ "") :
    (∀ ev ∈ createRelease env flags ⟨chunks, true⟩, ev.isHostingApi = false) ∧
      Event.print (wouldCreateMsg tb.1 project (chunks.getLast?.getD "")) ∈
        createRelease env flags ⟨chunks, true⟩ ∧
      (∃ s1 s2 s3 s4,
        wouldCreateMsg tb.1 project (chunks.getLast?.getD "") = s1 ++ tb.1 ++ s2 ∧
        wouldCreateMsg tb.1 project (chunks.getLast?.getD "") =
          s3 ++ (chunks.getLast?.getD "") ++ s4) ∧
      (createRelease env flags ⟨chunks, true⟩).getLast? = some (Event.exit 0) := by
  have htr := createRelease_noop_trace env flags chunks repo project comm evs tb
    htag hrepo hproj hcm hmsg htitle
  refine ⟨?_, ?_, ?_, ?_⟩
  · intro ev hev
    rw [htr] at hev
    simp only [List.append_assoc, List.mem_append, List.mem_cons, List.mem_singleton,
      List.not_mem_nil, or_false] at hev
    rcases hev with (rfl | rfl | rfl) | hbr | hevs | rfl | hup | rfl
    · rfl
    · rfl
    · rfl
    · by_cases hcom : flags.commitish = ""
      · rw [if_pos hcom] at hbr
        rcases List.mem_singleton.1 hbr with rfl
        rfl
      · rw [if_neg hcom] at hbr
        simp at hbr
    · rcases resolveReleaseMsg_events env flags ev (by rw [hmsg]; exact hevs) with
        rfl | rfl | rfl | rfl <;> rfl
    · rfl
    · obtain ⟨s, rfl⟩ := (uploadAssets_noop env none flags.assets).2 ev hup
      rfl
    · rfl
  · rw [htr]
    simp
  · refine ⟨"Would create release `",
      "' for " ++ project.str ++ " with tag name `" ++ (chunks.getLast?.getD "") ++ "'\n",
      "Would create release `" ++ tb.1 ++ "' for " ++ project.str ++ " with tag name `",
      "'\n", ?_, ?_⟩ <;>
    · unfold wouldCreateMsg
      simp [String.append_assoc]
  · rw [htr]
    exact List.getLast?_concat _

/-- Witness for C5 at a concrete no-op invocation `release create v1.0`. -/
theorem createRelease_noop_no_api_witness :
    Event.print (wouldCreateMsg "v1 title" sampleProject "v1.0") ∈
        createRelease sampleEnv sampleFlags ⟨["v1.0"], true⟩ ∧
      (createRelease sampleEnv sampleFlags ⟨["v1.0"], true⟩).getLast? =
        some (Event.exit 0) := by
  have h := createRelease_noop_no_api sampleEnv sampleFlags ["v1.0"] sampleRepo
    sampleProject "master" [] ("v1 title", "release body")
    (by decide) rfl rfl rfl rfl (by decide)
  exact ⟨h.2.1, h.2.2.2⟩

/-! ## C10 -/

/-- C10: with the no-op latch set and any non-empty asset list, the nil
release value handed to the asset-upload step is never read (the upload trace
is independent of the release argument), no nil dereference occurs, and the
handler still reaches its normal exit. -/
theorem createRelease_noop_nil_release_safe
    (env : Env) (flags : ReleaseFlags) (chunks : List String)
    (repo : LocalRepo) (project : Project) (comm : String)
    (evs : List Event) (tb : String × String)
    (htag : chunks.getLast?.getD "" ≠ "")
    (hrepo : env.localRepo = .ok repo)
    (hproj : repo.currentProject = .ok project)
    (hcm : (if flags.commitish = "" then repo.currentBranch
            else Except.ok flags.commitish) = .ok comm)
    (hmsg : resolveReleaseMsg env flags = (evs, .ok tb))
    (htitle : tb.1 ≠ "")
    (hassets : flags.assets ≠ []) :
    Event.nilDeref ∉ createRelease env flags ⟨chunks, true⟩ ∧
      (createRelease env flags ⟨chunks, true⟩).getLast? = some (Event.exit 0) ∧
      ∀ r1 r2 : Option FetchedRelease,
        uploadAssets env r1 flags.assets true = uploadAssets env r2 flags.assets true := by
  have htr := createRelease_noop_trace env flags chunks repo project comm evs tb
    htag hrepo hproj hcm hmsg htitle
  refine ⟨?_, ?_, fun r1 r2 => uploadAssets_noop_indep env r1 r2 flags.assets⟩
  · intro hev
    rw [htr] at hev
    simp only [List.append_assoc, List.mem_append, List.mem_cons, List.mem_singleton,
      List.not_mem_nil, or_false] at hev
    rcases hev with (h1 | h1 | h1) | hbr | hevs | h1 | hup | h1
    · exact Event.noConfusion h1
    · exact Event.noConfusion h1
    · exact Event.noConfusion h1
    · by_cases hcom : flags.commitish = ""
      · rw [if_pos hcom] at hbr
        have h1 := List.mem_singleton.1 hbr
        exact Event.noConfusion h1
      · rw [if_neg hcom] at hbr
        simp at hbr
    · rcases resolveReleaseMsg_events env flags _ (by rw [hmsg]; exact hevs) with
        h1 | h1 | h1 | h1 <;> exact Event.noConfusion h1
    · exact Event.noConfusion h1
    · obtain ⟨s, h1⟩ := (uploadAssets_noop env none flags.assets).2 _ hup
      exact Event.noConfusion h1
    · exact Event.noConfusion h1
  · rw [htr]
    exact List.getLast?_concat _

/-- Witness for C10 at a concrete no-op invocation with two assets. -/
theorem createRelease_noop_nil_release_safe_witness :
    Event.nilDeref ∉ createRelease sampleEnv sampleFlags ⟨["v1.0"], true⟩ ∧
      (createRelease sampleEnv sampleFlags ⟨["v1.0"], true⟩).getLast? =
        some (Event.exit 0) := by
  have h := createRelease_noop_nil_release_safe sampleEnv sampleFlags ["v1.0"] sampleRepo
    sampleProject "master" [] ("v1 title", "release body")
    (by decide) rfl rfl rfl rfl (by decide) (by decide)
  exact ⟨h.1, h.2.1⟩

/-! ## C8 -/

theorem uploadAssets_fail_step (env : Env) (rel : FetchedRelease) (a : String)
    (rest : List String) (e : GoError)
    (hfail : env.uploadAsset rel (splitAsset a).1 (splitAsset a).2 = .error e) :
    uploadAssets env (some rel) (a :: rest) false =
      ([Event.errPrint ("Attaching release asset `" ++ (splitAsset a).1 ++ "'...\n"),
        Event.uploadAssetCall rel (splitAsset a).1 (splitAsset a).2,
        Event.errPrint e.msg, Event.exit e.exitCode], true) := by
  unfold uploadAssets
  simp only [hfail]
  rfl

theorem createReleaseRest_upload_fail
    (env : Env) (flags : ReleaseFlags) (chunks : List String) (project : Project)
    (tag comm : String) (evs : List Event) (tb : String × String)
    (rel : FetchedRelease) (e : GoError) (a : String) (rest : List String)
    (hmsg : resolveReleaseMsg env flags = (evs, .ok tb)) (htitle : tb.1 ≠ "")
    (hcr : env.createReleaseApi project
        ⟨tag, comm, tb.1, tb.2, flags.draft, flags.prerelease⟩ = .ok rel)
    (hassets : flags.assets = a :: rest)
    (hfail : env.uploadAsset rel (splitAsset a).1 (splitAsset a).2 = .error e) :
    createReleaseRest env flags ⟨chunks, false⟩ project tag comm =
      evs ++
        [Event.createReleaseCall ⟨tag, comm, tb.1, tb.2, flags.draft, flags.prerelease⟩,
         Event.print (rel.htmlUrl ++ "\n"),
         Event.errPrint ("Attaching release asset `" ++ (splitAsset a).1 ++ "'...\n"),
         Event.uploadAssetCall rel (splitAsset a).1 (splitAsset a).2,
         Event.errPrint e.msg, Event.exit e.exitCode] := by
  unfold createReleaseRest finishUpload
  simp only [hmsg]
  rw [if_neg htitle]
  simp only [hcr, hassets]
  rw [uploadAssets_fail_step env rel a rest e hfail]
  simp

/-- C8: after a successful release creation, a checked failure of the first
asset upload terminates the process immediately — the trace ends with the
failure report and a nonzero exit right after the failing upload call, with
no further operation of any kind (in particular nothing that deletes or
undoes the created release: the only hosting-API operations in the whole
trace are the one creation and the one failed upload). -/
theorem createRelease_upload_failure_no_rollback
    (env : Env) (flags : ReleaseFlags) (chunks : List String)
    (repo : LocalRepo) (project : Project) (comm : String)
    (evs : List Event) (tb : String × String)
    (rel : FetchedRelease) (e : GoError) (a : String) (rest : List String)
    (htag : chunks.getLast?.getD "" ≠ "")
    (hrepo : env.localRepo = .ok repo)
    (hproj : repo.currentProject = .ok project)
    (hcm : (if flags.commitish = "" then repo.currentBranch
            else Except.ok flags.commitish) = .ok comm)
    (hmsg : resolveReleaseMsg env flags = (evs, .ok tb))
    (htitle : tb.1 ≠ "")
    (hcr : env.createReleaseApi project
        ⟨chunks.getLast?.getD "", comm, tb.1, tb.2, flags.draft, flags.prerelease⟩ = .ok rel)
    (hassets : flags.assets = a :: rest)
    (hfail : env.uploadAsset rel (splitAsset a).1 (splitAsset a).2 = .error e) :
    createRelease env flags ⟨chunks, false⟩ =
      ([Event.localRepoCall, Event.currentProjectCall, Event.newClientCall project.host] ++
        (if flags.commitish = "" then [Event.currentBranchCall] else []) ++ evs ++
        [Event.createReleaseCall
           ⟨chunks.getLast?.getD "", comm, tb.1, tb.2, flags.draft, flags.prerelease⟩,
         Event.print (rel.htmlUrl ++ "\n"),
         Event.errPrint ("Attaching release asset `" ++ (splitAsset a).1 ++ "'...\n"),
         Event.uploadAssetCall rel (splitAsset a).1 (splitAsset a).2]) ++
        [Event.errPrint e.msg, Event.exit e.exitCode] ∧
      e.exitCode ≠ 0 ∧
      (∀ ev ∈ createRelease env flags ⟨chunks, false⟩, ev.isHostingApi = true →
        ev = Event.createReleaseCall
            ⟨chunks.getLast?.getD "", comm, tb.1, tb.2, flags.draft, flags.prerelease⟩ ∨
          ev = Event.uploadAssetCall rel (splitAsset a).1 (splitAsset a).2) := by
  have htr : createRelease env flags ⟨chunks, false⟩ =
      ([Event.localRepoCall, Event.currentProjectCall, Event.newClientCall project.host] ++
        (if flags.commitish = "" then [Event.currentBranchCall] else []) ++ evs ++
        [Event.createReleaseCall
           ⟨chunks.getLast?.getD "", comm, tb.1, tb.2, flags.draft, flags.prerelease⟩,
         Event.print (rel.htmlUrl ++ "\n"),
         Event.errPrint ("Attaching release asset `" ++ (splitAsset a).1 ++ "'...\n"),
         Event.uploadAssetCall rel (splitAsset a).1 (splitAsset a).2]) ++
        [Event.errPrint e.msg, Event.exit e.exitCode] := by
    unfold createRelease
    simp only [Args.lastParam]
    rw [if_neg htag]
    simp only [hrepo, hproj]
    by_cases hcom : flags.commitish = ""
    · rw [if_pos hcom] at hcm ⊢
      simp only [hcm]
      rw [createReleaseRest_upload_fail env flags chunks project _ comm evs tb rel e a rest
        hmsg htitle hcr hassets hfail]
      simp [hcom]
    · rw [if_neg hcom] at hcm ⊢
      have hcomm : comm = flags.commitish := by
        injection hcm with h1
        exact h1.symm
      subst hcomm
      rw [createReleaseRest_upload_fail env flags chunks project _ flags.commitish evs tb
        rel e a rest hmsg htitle hcr hassets hfail]
      simp [hcom]
  refine ⟨htr, ?_, ?_⟩
  · cases e <;> simp [GoError.exitCode]
  · intro ev hev hapi
    rw [htr] at hev
    simp only [List.append_assoc, List.mem_append, List.mem_cons, List.mem_singleton,
      List.not_mem_nil, or_false] at hev
    rcases hev with (rfl | rfl | rfl) | hbr | hevs | (rfl | rfl | rfl | rfl) | (rfl | rfl)
    · simp [Event.isHostingApi] at hapi
    · simp [Event.isHostingApi] at hapi
    · simp [Event.isHostingApi] at hapi
    · by_cases hcom : flags.commitish = ""
      · rw [if_pos hcom] at hbr
        rcases List.mem_singleton.1 hbr with rfl
        simp [Event.isHostingApi] at hapi
      · rw [if_neg hcom] at hbr
        simp at hbr
    · rcases resolveReleaseMsg_events env flags ev (by rw [hmsg]; exact hevs) with
        rfl | rfl | rfl | rfl <;> simp [Event.isHostingApi] at hapi
    · exact Or.inl rfl
    · simp [Event.isHostingApi] at hapi
    · simp [Event.isHostingApi] at hapi
    · exact Or.inr rfl
    · simp [Event.isHostingApi] at hapi
    · simp [Event.isHostingApi] at hapi

/-- Witness for C8 at a concrete failing upload. -/
theorem createRelease_upload_failure_no_rollback_witness :
    (GoError.checked "upload failed").exitCode ≠ 0 ∧
      (createRelease failUploadEnv uploadFailFlags ⟨["v1.0"], false⟩).getLast? =
        some (Event.exit 1) := by
  have h := createRelease_upload_failure_no_rollback failUploadEnv uploadFailFlags
    ["v1.0"] sampleRepo sampleProject "main" [] ("v1 title", "release body")
    sampleRelease (.checked "upload failed") "f1" []
    (by decide) rfl rfl rfl rfl (by decide) rfl rfl rfl
  refine ⟨h.2.1, ?_⟩
  rw [h.1]
  rfl

/-! ## C9 -/

/-- C9 (code bug): with --message empty and --file naming "notes.txt", the
handler reads from the file named by the message flag's (empty) value rather
than from "notes.txt" — release.go line 204 passes `flagReleaseMessage` to
`readMsgFromFile` instead of `flagReleaseFile`. -/
theorem createRelease_reads_message_flag_as_file :
    Event.readFileCall "" ∈ createRelease sampleEnv fileBugFlags ⟨["v1.0"], false⟩ ∧
      Event.readFileCall "notes.txt" ∉
        createRelease sampleEnv fileBugFlags ⟨["v1.0"], false⟩ ∧
      fileBugFlags.file = "notes.txt" ∧ fileBugFlags.message = "" ∧
      (resolveReleaseMsg sampleEnv fileBugFlags).1 = [Event.readFileCall ""] := by
  exact ⟨by decide, by decide, rfl, rfl, rfl⟩

end Hub
